import Mathlib

/-!
Verification of the outline-list state management of the vivid-ai repository.

The definitions below are a shallow embedding of the TypeScript source:

* `CardList.tsx` — drag-and-drop reordering (`onDrop`, `onDragEnd`),
  insertion (`onAddCard`) and deletion (`onCardDelete`) of outline cards;
* the zustand Creative-AI store — `setCurrentAiPrompt`, `addOutline`,
  `addMultipleOutlines`, `resetOutlines`;
* `CreativeAI.tsx` — `resetCards`, `generateOutline`, `handleGenerate`
  and the `noOfCards` synchronisation effect;
* `Editor.tsx` — the debounced auto-save effect.

JavaScript arrays are embedded as `List`, `null`-able values as `Option`,
and the asynchronous external calls (AI generation, project creation) as
explicit response inputs to the functions that await them.
-/

namespace VividAI

/-- Outline card record (`lib/types`): an opaque identifier, a display
title and a 1-based `order` position. -/
structure OutlineCard where
  id : String
  title : String
  order : Nat
deriving Repr, DecidableEq

/-- Transient drag state of the `CardList` component: the `draggedItem`
and `dragOverIndex` `useState` cells (`null` embedded as `none`). -/
structure DragState where
  draggedItem : Option OutlineCard
  dragOverIndex : Option Nat
deriving Repr, DecidableEq

/-- State visible to the `CardList` handlers: the `outlines` prop backed
by the store, plus the transient drag state. -/
structure CardListState where
  outlines : List OutlineCard
  drag : DragState
deriving Repr, DecidableEq

/-- Insertion step of `Array.prototype.splice(start, 0, item)`: JavaScript
clamps `start` to the array length (past-the-end inserts append), unlike
`List.insertIdx`, which returns the list unchanged when out of range. -/
def jsSpliceInsert (i : Nat) (a : α) (l : List α) : List α :=
  l.insertIdx (min i l.length) a

/-- Renumbering pass `.map((card, index) => ({...card, order: index + 1}))`
used on every committed mutation in `CardList.tsx`. -/
def renumber (l : List OutlineCard) : List OutlineCard :=
  l.mapIdx fun idx card => { card with order := idx + 1 }

/-- Embedding of `onDrop` (`CardList.tsx` lines 42-57).  The early
`return` statements leave the component state untouched; the commit path
removes the dragged card at its identity-resolved index, re-inserts it at
the hover index (adjusted down by one when past the removal point),
renumbers, and clears the drag state. -/
def onDrop (s : CardListState) : CardListState :=
  match s.drag.draggedItem, s.drag.dragOverIndex with
  | some draggedItem, some dragOverIndex =>
    match s.outlines.findIdx? (fun card => card.id == draggedItem.id) with
    | none => s
    | some draggedIndex =>
      if draggedIndex = dragOverIndex then s
      else
        match s.outlines[draggedIndex]? with
        | none => s
        | some removeCard =>
          let rest := s.outlines.eraseIdx draggedIndex
          let target := if dragOverIndex > draggedIndex then dragOverIndex - 1 else dragOverIndex
          { outlines := renumber (jsSpliceInsert target removeCard rest)
            drag := { draggedItem := none, dragOverIndex := none } }
  | _, _ => s

/-- Embedding of `onDragEnd` (`CardList.tsx` lines 91-94): clears both
pieces of transient drag state. -/
def onDragEnd (s : CardListState) : CardListState :=
  { s with drag := { draggedItem := none, dragOverIndex := none } }

/-- Embedding of `onCardDelete` (`CardList.tsx` lines 66-70): filter the
card out by identity, then renumber the remainder. -/
def onCardDelete (id : String) (outlines : List OutlineCard) : List OutlineCard :=
  renumber (outlines.filter fun card => card.id != id)

/-- Embedding of `onAddCard` (`CardList.tsx` lines 116-133).  The
generated identifier (`Math.random().toString(36).substr(2, 9)`) is passed
in as `newId`; `index + 1` slices become `take`/`drop`; the JavaScript
fallback `editText || 'New Section'` becomes an emptiness test. -/
def onAddCard (newId : String) (editText : String) (index : Option Nat)
    (outlines : List OutlineCard) : List OutlineCard :=
  let newCard : OutlineCard :=
    { id := newId
      title := if editText = "" then "New Section" else editText
      order := (match index with | some i => i + 1 | none => outlines.length) + 1 }
  match index with
  | some i =>
      outlines.take (i + 1)
        ++ newCard :: (outlines.drop (i + 1)).map (fun card => { card with order := card.order + 1 })
  | none => outlines ++ [newCard]

/-- Order-contiguity check starting at `n`: the `order` fields of the list
are `n, n + 1, n + 2, …` in array position. -/
def ordersFrom (n : Nat) : List OutlineCard → Bool
  | [] => true
  | card :: rest => card.order == n && ordersFrom (n + 1) rest

/-- Order-contiguity invariant of the spec: for a list of `N` cards the
`order` fields are exactly `1, …, N` matching array position. -/
def ordersContiguous (l : List OutlineCard) : Bool :=
  ordersFrom 1 l

/-- One committed user operation on the outline list, as dispatched by the
`CardList` event handlers. -/
inductive OutlineOp where
  | insert (newId : String) (editText : String) (anchor : Option Nat)
  | delete (id : String)
  | drop (draggedItem : OutlineCard) (dragOverIndex : Nat)
deriving Repr, DecidableEq

/-- Effect of one operation on the outline list.  A `drop` runs the full
`onDrop` handler (which may abort) and keeps the resulting list. -/
def applyOp (op : OutlineOp) (l : List OutlineCard) : List OutlineCard :=
  match op with
  | .insert newId editText anchor => onAddCard newId editText anchor l
  | .delete id => onCardDelete id l
  | .drop draggedItem dragOverIndex =>
      (onDrop { outlines := l
                drag := { draggedItem := some draggedItem
                          dragOverIndex := some dragOverIndex } }).outlines

/-- Validity of an operation against the current list: the UI only ever
invokes `onAddCard` with the render index of an existing card (so
`anchor < N`) or with no anchor at all; deletes and drops may carry any
identity or index. -/
def validOp (op : OutlineOp) (l : List OutlineCard) : Bool :=
  match op with
  | .insert _ _ (some i) => decide (i < l.length)
  | _ => true

/-- Left fold of `applyOp` over a sequence of operations. -/
def runOps (ops : List OutlineOp) (l : List OutlineCard) : List OutlineCard :=
  match ops with
  | [] => l
  | op :: rest => runOps rest (applyOp op l)

/-- Every operation of the sequence is valid for the list it is applied
to. -/
def validOps (ops : List OutlineOp) (l : List OutlineCard) : Bool :=
  match ops with
  | [] => true
  | op :: rest => validOp op l && validOps rest (applyOp op l)

theorem onAddCard_none (newId editText : String) (l : List OutlineCard) :
    onAddCard newId editText none l
      = l ++ [{ id := newId
                title := if editText = "" then "New Section" else editText
                order := l.length + 1 }] := rfl

theorem onAddCard_some (newId editText : String) (i : Nat) (l : List OutlineCard) :
    onAddCard newId editText (some i) l
      = l.take (i + 1)
        ++ { id := newId
             title := if editText = "" then "New Section" else editText
             order := i + 1 + 1 }
          :: (l.drop (i + 1)).map (fun card => { card with order := card.order + 1 }) := rfl

theorem ordersFrom_append (l₁ l₂ : List OutlineCard) (n : Nat) :
    ordersFrom n (l₁ ++ l₂) = (ordersFrom n l₁ && ordersFrom (n + l₁.length) l₂) := by
  induction l₁ generalizing n with
  | nil => simp [ordersFrom]
  | cons c rest ih =>
      simp only [List.cons_append, ordersFrom, List.length_cons, List.append_eq, ih (n + 1),
        Bool.and_assoc]
      rw [show n + (rest.length + 1) = n + 1 + rest.length by omega]

theorem ordersFrom_renumber_aux (l : List OutlineCard) :
    ∀ n, ordersFrom (n + 1) (l.mapIdx fun i card => { card with order := n + i + 1 }) = true := by
  induction l with
  | nil => intro n; rfl
  | cons c rest ih =>
      intro n
      have hf : (fun i (card : OutlineCard) =>
          ({ card with order := n + (i + 1) + 1 } : OutlineCard))
          = fun i card => { card with order := n + 1 + i + 1 } := by
        funext i card
        congr 1
        omega
      simp only [List.mapIdx_cons, ordersFrom, Bool.and_eq_true, beq_iff_eq]
      refine ⟨trivial, ?_⟩
      rw [hf]
      exact ih (n + 1)

theorem ordersContiguous_renumber (l : List OutlineCard) :
    ordersContiguous (renumber l) = true := by
  have hf : (fun i (card : OutlineCard) => ({ card with order := i + 1 } : OutlineCard))
      = fun i card => { card with order := 0 + i + 1 } := by
    funext i card
    congr 1
    omega
  unfold ordersContiguous renumber
  rw [hf]
  exact ordersFrom_renumber_aux l 0

theorem ordersFrom_map_bump (l : List OutlineCard) :
    ∀ n, ordersFrom n l = true →
      ordersFrom (n + 1) (l.map fun card => { card with order := card.order + 1 }) = true := by
  induction l with
  | nil => intro n _; rfl
  | cons c rest ih =>
      intro n h
      simp only [ordersFrom, Bool.and_eq_true, beq_iff_eq] at h ⊢
      simp only [List.map_cons] at *
      exact ⟨by omega, ih (n + 1) h.2⟩

theorem ordersFrom_take_drop (l : List OutlineCard) (k n : Nat) (hk : k ≤ l.length)
    (h : ordersFrom n l = true) :
    ordersFrom n (l.take k) = true ∧ ordersFrom (n + k) (l.drop k) = true := by
  have hsplit := ordersFrom_append (l.take k) (l.drop k) n
  rw [List.take_append_drop, List.length_take, Nat.min_eq_left hk] at hsplit
  rw [hsplit, Bool.and_eq_true] at h
  exact h

theorem onAddCard_preserves (newId editText : String) (index : Option Nat)
    (l : List OutlineCard)
    (hv : validOp (.insert newId editText index) l = true)
    (h : ordersContiguous l = true) :
    ordersContiguous (onAddCard newId editText index l) = true := by
  cases index with
  | none =>
      unfold ordersContiguous
      rw [onAddCard_none, ordersFrom_append, Bool.and_eq_true]
      refine ⟨h, ?_⟩
      simp only [ordersFrom, Bool.and_true, beq_iff_eq]
      exact (by omega : l.length + 1 = 1 + l.length)
  | some i =>
      have hi : i < l.length := by
        simpa [validOp] using hv
      have hk : i + 1 ≤ l.length := hi
      obtain ⟨htake, hdrop⟩ := ordersFrom_take_drop l (i + 1) 1 hk h
      unfold ordersContiguous
      rw [onAddCard_some, ordersFrom_append, Bool.and_eq_true, List.length_take,
        Nat.min_eq_left hk]
      refine ⟨htake, ?_⟩
      simp only [ordersFrom, Bool.and_eq_true, beq_iff_eq]
      exact ⟨(by omega : i + 1 + 1 = 1 + (i + 1)),
        ordersFrom_map_bump (l.drop (i + 1)) (1 + (i + 1)) hdrop⟩

theorem onCardDelete_contiguous (id : String) (l : List OutlineCard) :
    ordersContiguous (onCardDelete id l) = true :=
  ordersContiguous_renumber _

theorem onDrop_outlines_contiguous (s : CardListState)
    (h : ordersContiguous s.outlines = true) :
    ordersContiguous (onDrop s).outlines = true := by
  unfold onDrop
  repeat' split
  all_goals first
    | exact h
    | exact ordersContiguous_renumber _

theorem applyOp_preserves (op : OutlineOp) (l : List OutlineCard)
    (hv : validOp op l = true) (h : ordersContiguous l = true) :
    ordersContiguous (applyOp op l) = true := by
  cases op with
  | insert newId editText anchor => exact onAddCard_preserves newId editText anchor l hv h
  | delete id => exact onCardDelete_contiguous id l
  | drop draggedItem dragOverIndex => exact onDrop_outlines_contiguous _ h

theorem runOps_preserves (ops : List OutlineOp) :
    ∀ l, validOps ops l = true → ordersContiguous l = true →
      ordersContiguous (runOps ops l) = true := by
  induction ops with
  | nil => intro l _ h; exact h
  | cons op rest ih =>
      intro l hv h
      simp only [validOps, Bool.and_eq_true] at hv
      exact ih (applyOp op l) hv.2 (applyOp_preserves op l hv.1 h)

theorem validOps_append_left (ops₁ ops₂ : List OutlineOp) :
    ∀ l, validOps (ops₁ ++ ops₂) l = true → validOps ops₁ l = true := by
  induction ops₁ with
  | nil => intro l _; rfl
  | cons op rest ih =>
      intro l hv
      simp only [List.cons_append, validOps, Bool.and_eq_true] at hv ⊢
      exact ⟨hv.1, ih (applyOp op l) hv.2⟩

/-- C1 — Order contiguity invariant: for any sequence of insert
(`onAddCard`, anchored at a rendered card or unanchored), delete
(`onCardDelete`) and drop (`onDrop`) operations starting from the empty
outline list, after each committed operation — that is, after every
prefix of the sequence — the list of `N` cards carries `order` fields
exactly `1, …, N` matching array position, with no gaps and no
duplicates. -/
theorem order_contiguity_invariant (ops₁ ops₂ : List OutlineOp)
    (h : validOps (ops₁ ++ ops₂) [] = true) :
    ordersContiguous (runOps ops₁ []) = true :=
  runOps_preserves ops₁ [] (validOps_append_left ops₁ ops₂ [] h) rfl

/-- Witness for C1 at a concrete operation sequence: insert two cards,
drop the first onto the second, delete one, insert another — contiguity
holds after the first three operations of the five. -/
theorem order_contiguity_invariant_witness :
    validOps
      ([.insert "a" "" none, .insert "b" "A" (some 0), .drop ⟨"a", "New Section", 2⟩ 0]
        ++ [.delete "b", .insert "c" "" (some 0)]) [] = true
    ∧ ordersContiguous
        (runOps [.insert "a" "" none, .insert "b" "A" (some 0),
          .drop ⟨"a", "New Section", 2⟩ 0] []) = true :=
  ⟨by decide,
    order_contiguity_invariant
      [.insert "a" "" none, .insert "b" "A" (some 0), .drop ⟨"a", "New Section", 2⟩ 0]
      [.delete "b", .insert "c" "" (some 0)] (by decide)⟩

/-- C2 — Move (drop) semantics: when the dragged identity is found at
source index `i`, the resolved hover index `j` differs from `i` and lies
within the list, the committed outline list is the original with the card
removed from position `i` and re-inserted at position `j`, decreased by
one when `j > i` (standard same-array splice move), then renumbered. -/
theorem onDrop_move_semantics (outlines : List OutlineCard)
    (draggedItem removeCard : OutlineCard) (i j : Nat)
    (hfind : outlines.findIdx? (fun card => card.id == draggedItem.id) = some i)
    (hget : outlines[i]? = some removeCard)
    (hne : i ≠ j) (hj : j ≤ outlines.length) :
    (onDrop { outlines := outlines
              drag := { draggedItem := some draggedItem, dragOverIndex := some j } }).outlines
      = renumber ((outlines.eraseIdx i).insertIdx (if j > i then j - 1 else j) removeCard) := by
  have hi : i < outlines.length := (List.findIdx?_eq_some_iff_findIdx_eq.mp hfind).1
  have hrest : (outlines.eraseIdx i).length = outlines.length - 1 := by
    rw [List.length_eraseIdx, if_pos hi]
  have hmin : min (if j > i then j - 1 else j) (outlines.eraseIdx i).length
      = (if j > i then j - 1 else j) := by
    rw [hrest]
    split <;> omega
  unfold onDrop
  simp only [hfind, hget, if_neg hne, jsSpliceInsert, hmin]

/-- Witness for C2 at the spec scenario: cards `a, b, c` with orders
`1, 2, 3`, dragging `a` with the hover resolved to the lower half of `b`
(index 2) commits `b, a, c` with orders `1, 2, 3`. -/
theorem onDrop_move_semantics_witness :
    ([⟨"a", "A", 1⟩, ⟨"b", "B", 2⟩, ⟨"c", "C", 3⟩] :
        List OutlineCard).findIdx? (fun card => card.id == "a") = some 0
    ∧ (onDrop { outlines := [⟨"a", "A", 1⟩, ⟨"b", "B", 2⟩, ⟨"c", "C", 3⟩]
                drag := { draggedItem := some ⟨"a", "A", 1⟩,
                          dragOverIndex := some 2 } }).outlines
        = renumber ((([⟨"a", "A", 1⟩, ⟨"b", "B", 2⟩, ⟨"c", "C", 3⟩] :
            List OutlineCard).eraseIdx 0).insertIdx (if 2 > 0 then 2 - 1 else 2) ⟨"a", "A", 1⟩)
    ∧ (onDrop { outlines := [⟨"a", "A", 1⟩, ⟨"b", "B", 2⟩, ⟨"c", "C", 3⟩]
                drag := { draggedItem := some ⟨"a", "A", 1⟩,
                          dragOverIndex := some 2 } }).outlines
        = [⟨"b", "B", 1⟩, ⟨"a", "A", 2⟩, ⟨"c", "C", 3⟩] :=
  ⟨by decide,
    onDrop_move_semantics [⟨"a", "A", 1⟩, ⟨"b", "B", 2⟩, ⟨"c", "C", 3⟩] ⟨"a", "A", 1⟩
      ⟨"a", "A", 1⟩ 0 2 (by decide) (by decide) (by decide) (by decide),
    by decide⟩

/-- C4 — No-op drop: when the dragged identity is absent from the list,
or the resolved hover index equals the identity-resolved source index,
`onDrop` returns the whole component state unchanged, so the outline list
keeps the same identities, titles and order values. -/
theorem onDrop_noop (outlines : List OutlineCard) (draggedItem : OutlineCard) (j : Nat)
    (h : (∀ card ∈ outlines, card.id ≠ draggedItem.id)
      ∨ outlines.findIdx? (fun card => card.id == draggedItem.id) = some j) :
    onDrop { outlines := outlines
             drag := { draggedItem := some draggedItem, dragOverIndex := some j } }
      = { outlines := outlines
          drag := { draggedItem := some draggedItem, dragOverIndex := some j } } := by
  unfold onDrop
  rcases h with hnone | hsome
  · have hfind : outlines.findIdx? (fun card => card.id == draggedItem.id) = none :=
      List.findIdx?_eq_none_iff.mpr (fun x hx => by simpa using hnone x hx)
    simp only [hfind]
  · simp only [hsome]
    rw [if_pos trivial]

/-- Witness for C4: dropping an identity that is not in the list, and
dropping an identity back onto its own resolved index, both leave the
state unchanged. -/
theorem onDrop_noop_witness :
    (onDrop { outlines := [⟨"a", "A", 1⟩, ⟨"b", "B", 2⟩]
              drag := { draggedItem := some ⟨"q", "Q", 7⟩, dragOverIndex := some 1 } }
      = { outlines := [⟨"a", "A", 1⟩, ⟨"b", "B", 2⟩]
          drag := { draggedItem := some ⟨"q", "Q", 7⟩, dragOverIndex := some 1 } })
    ∧ (onDrop { outlines := [⟨"a", "A", 1⟩, ⟨"b", "B", 2⟩]
                drag := { draggedItem := some ⟨"b", "B", 2⟩, dragOverIndex := some 1 } }
      = { outlines := [⟨"a", "A", 1⟩, ⟨"b", "B", 2⟩]
          drag := { draggedItem := some ⟨"b", "B", 2⟩, dragOverIndex := some 1 } }) :=
  ⟨onDrop_noop [⟨"a", "A", 1⟩, ⟨"b", "B", 2⟩] ⟨"q", "Q", 7⟩ 1 (Or.inl (by decide)),
    onDrop_noop [⟨"a", "A", 1⟩, ⟨"b", "B", 2⟩] ⟨"b", "B", 2⟩ 1 (Or.inr (by decide))⟩

/-- C6 counterexample: an aborting drop (dragged identity missing from
the list) returns early without clearing the transient drag state, so
`draggedItem` is still set after the drop handler runs — the claim that
every exit path of the drop handler clears the drag state is false. -/
theorem drag_state_cleared_cex :
    (onDrop { outlines := [⟨"a", "A", 1⟩]
              drag := { draggedItem := some ⟨"q", "Q", 1⟩,
                        dragOverIndex := some 0 } }).drag.draggedItem ≠ none := by
  decide

/-- C6 amended — Transient drag state is cleared by the committing drop
path and by `onDragEnd`, but the aborting drop paths return early without
clearing it; since the drag-end handler runs at the end of every gesture,
the drag state is null after a drop handler followed by drag-end,
whether or not a reorder was committed. -/
theorem drag_state_cleared_after_gesture (s : CardListState) :
    (onDragEnd (onDrop s)).drag.draggedItem = none
    ∧ (onDragEnd (onDrop s)).drag.dragOverIndex = none :=
  ⟨rfl, rfl⟩

/-- Witness for C6 amended at a concrete aborting state. -/
theorem drag_state_cleared_after_gesture_witness :
    (onDragEnd (onDrop { outlines := [⟨"a", "A", 1⟩]
                         drag := { draggedItem := some ⟨"q", "Q", 1⟩,
                                   dragOverIndex := some 0 } })).drag.draggedItem = none :=
  (drag_state_cleared_after_gesture _).1

/-- C3 counterexample: inserting with anchor index `1` into
`[x with order 1, y with order 2]` appends the new card after `y`
(result identities and orders `x:1, y:2, new:3`), not between `x` and `y`
as the claim states. -/
theorem insert_at_index_cex :
    (onAddCard "new" "" (some 1) [⟨"x", "X", 1⟩, ⟨"y", "Y", 2⟩]).map
        (fun card => (card.id, card.order))
      ≠ [("x", 1), ("new", 2), ("y", 3)] := by
  decide

/-- C3 amended — Insert-at-index: for every outline list and anchor index
`i < N`, `onAddCard` places the new card (generated identifier, title
from the edit text or the default) immediately after the anchor — the
prefix up to the anchor is unchanged, position `i + 1` holds the new card
with order `i + 2` — and shifts each subsequent item's `order` up by one;
with no anchor the card is appended with order `N + 1`.  In particular
the spec scenario holds with anchor index `0` (the card with order 1),
not anchor index `1`. -/
theorem onAddCard_insert_spec (newId editText : String) (i : Nat) (l : List OutlineCard)
    (hi : i < l.length) :
    (onAddCard newId editText (some i) l).length = l.length + 1
    ∧ (onAddCard newId editText (some i) l).take (i + 1) = l.take (i + 1)
    ∧ (onAddCard newId editText (some i) l)[i + 1]?
        = some { id := newId
                 title := if editText = "" then "New Section" else editText
                 order := i + 2 }
    ∧ (onAddCard newId editText (some i) l).drop (i + 2)
        = (l.drop (i + 1)).map (fun card => { card with order := card.order + 1 })
    ∧ onAddCard newId editText none l
        = l ++ [{ id := newId
                  title := if editText = "" then "New Section" else editText
                  order := l.length + 1 }] := by
  have hk : i + 1 ≤ l.length := hi
  have hlen : (l.take (i + 1)).length = i + 1 := by
    rw [List.length_take, Nat.min_eq_left hk]
  rw [onAddCard_some]
  refine ⟨?_, ?_, ?_, ?_, onAddCard_none newId editText l⟩
  · simp only [List.length_append, hlen, List.length_cons, List.length_map, List.length_drop]
    omega
  · exact List.take_left' hlen
  · rw [List.getElem?_append_right (by omega), hlen]
    simp
  · rw [show i + 2 = (l.take (i + 1)).length + 1 by omega, List.drop_append]
    simp

/-- Witness for C3 amended: the spec scenario with anchor index `0` —
inserting into `[x with order 1, y with order 2]` yields
`[x:1, new:2, y:3]` with the default title. -/
theorem onAddCard_insert_spec_witness :
    (0 < ([⟨"x", "X", 1⟩, ⟨"y", "Y", 2⟩] : List OutlineCard).length
      ∧ (onAddCard "new" "" (some 0) [⟨"x", "X", 1⟩, ⟨"y", "Y", 2⟩]).length = 3)
    ∧ onAddCard "new" "" (some 0) [⟨"x", "X", 1⟩, ⟨"y", "Y", 2⟩]
        = [⟨"x", "X", 1⟩, ⟨"new", "New Section", 2⟩, ⟨"y", "Y", 3⟩] :=
  ⟨⟨by decide,
      (onAddCard_insert_spec "new" "" 0 [⟨"x", "X", 1⟩, ⟨"y", "Y", 2⟩] (by decide)).1⟩,
    by decide⟩

theorem length_filter_split (id : String) (l : List OutlineCard) :
    (l.filter fun card => card.id != id).length
      + (l.filter fun card => card.id == id).length = l.length := by
  induction l with
  | nil => rfl
  | cons c rest ih =>
      simp only [List.filter_cons, bne] at ih ⊢
      by_cases hc : c.id = id <;> simp [hc] <;> omega

theorem map_idTitle_mapIdx (f : Nat → OutlineCard → Nat) (l : List OutlineCard) :
    (l.mapIdx (fun i card => { card with order := f i card })).map
        (fun card => (card.id, card.title))
      = l.map (fun card => (card.id, card.title)) := by
  induction l generalizing f with
  | nil => rfl
  | cons c rest ih =>
      simp only [List.mapIdx_cons, List.map_cons]
      exact congrArg _ (ih fun i card => f (i + 1) card)

theorem map_idTitle_renumber (l : List OutlineCard) :
    (renumber l).map (fun card => (card.id, card.title))
      = l.map (fun card => (card.id, card.title)) :=
  map_idTitle_mapIdx (fun i _ => i + 1) l

/-- C5 — Delete-by-id: for every outline list containing exactly one card
with the given id, `onCardDelete` produces a list exactly one shorter
whose remaining cards keep their identities, titles and relative order
(they are the non-matching cards in original order), with `order` fields
renumbered contiguously from 1. -/
theorem onCardDelete_spec (id : String) (l : List OutlineCard)
    (h : (l.filter fun card => card.id == id).length = 1) :
    (onCardDelete id l).length + 1 = l.length
    ∧ (onCardDelete id l).map (fun card => (card.id, card.title))
        = (l.filter fun card => card.id != id).map (fun card => (card.id, card.title))
    ∧ ordersContiguous (onCardDelete id l) = true := by
  have hsplit := length_filter_split id l
  refine ⟨?_, map_idTitle_renumber _, onCardDelete_contiguous id l⟩
  unfold onCardDelete renumber
  rw [List.length_mapIdx]
  omega

/-- Witness for C5 at the spec scenario: deleting `y` from
`[x:1, y:2, z:3]` yields `[x:1, z:2]`. -/
theorem onCardDelete_spec_witness :
    (([⟨"x", "X", 1⟩, ⟨"y", "Y", 2⟩, ⟨"z", "Z", 3⟩] : List OutlineCard).filter
        (fun card => card.id == "y")).length = 1
    ∧ (onCardDelete "y" [⟨"x", "X", 1⟩, ⟨"y", "Y", 2⟩, ⟨"z", "Z", 3⟩]).length + 1 = 3
    ∧ onCardDelete "y" [⟨"x", "X", 1⟩, ⟨"y", "Y", 2⟩, ⟨"z", "Z", 3⟩]
        = [⟨"x", "X", 1⟩, ⟨"z", "Z", 2⟩] :=
  ⟨by decide,
    (onCardDelete_spec "y" [⟨"x", "X", 1⟩, ⟨"y", "Y", 2⟩, ⟨"z", "Z", 3⟩] (by decide)).1,
    by decide⟩

/-- State of the Creative-AI zustand store (`useCreativeAIStore`): the
current prompt text and the outline list. -/
structure CreativeAIStore where
  currentAiPrompt : String
  outlines : List OutlineCard
deriving Repr, DecidableEq

/-- Store action `setCurrentAiPrompt`: replaces the prompt string. -/
def setCurrentAiPrompt (prompt : String) (s : CreativeAIStore) : CreativeAIStore :=
  { s with currentAiPrompt := prompt }

/-- Store action `addOutline`: prepends one card to the list. -/
def addOutline (outline : OutlineCard) (s : CreativeAIStore) : CreativeAIStore :=
  { s with outlines := outline :: s.outlines }

/-- Store action `addMultipleOutlines`: replaces the entire list. -/
def addMultipleOutlines (outlines : List OutlineCard) (s : CreativeAIStore) :
    CreativeAIStore :=
  { s with outlines := outlines }

/-- Store action `resetOutlines`: sets `outlines` to the empty list and
touches nothing else — in particular the prompt is not cleared here. -/
def resetOutlines (s : CreativeAIStore) : CreativeAIStore :=
  { s with outlines := [] }

/-- Local `useState` cells of the `CreateAI` component together with the
store slice it mutates. -/
structure CreativeAIState where
  editingCard : Option String
  isGenerating : Bool
  editText : String
  selectedCard : Option String
  noOfCards : Nat
  store : CreativeAIStore
deriving Repr, DecidableEq

/-- Embedding of `resetCards` (`CreativeAI.tsx` lines 39-45): clears the
transient edit state, then the prompt via `setCurrentAiPrompt('')`, then
the outline list via `resetOutlines()`. -/
def resetCards (s : CreativeAIState) : CreativeAIState :=
  { s with editingCard := none
           selectedCard := none
           editText := ""
           store := resetOutlines (setCurrentAiPrompt "" s.store) }

/-- Kind of a transient user notification. -/
inductive ToastKind where
  | error
  | success
deriving Repr, DecidableEq

/-- Transient user notification raised through the `toast` API. -/
structure Toast where
  kind : ToastKind
  title : String
  description : String
deriving Repr, DecidableEq

/-- Response of the external `generateCreativePrompt` action: a status
code and, on success, the ordered outline title strings. -/
structure GenerateResponse where
  status : Nat
  outlines : Option (List String)
deriving Repr, DecidableEq

/-- Embedding of `generateOutline` (`CreativeAI.tsx` lines 47-82).  The
awaited external response and the uuid generator are passed in
explicitly; the returned pair is the resulting component state and the
toasts raised during the run. -/
def generateOutline (freshId : Nat → String) (res : GenerateResponse)
    (s : CreativeAIState) : CreativeAIState × List Toast :=
  if s.store.currentAiPrompt = "" then
    (s, [{ kind := ToastKind.error, title := "Error"
           description := "Please enter a prompt to  generate an outline." }])
  else
    let s₁ := { s with isGenerating := true }
    let failed : CreativeAIState × List Toast :=
      ({ s₁ with isGenerating := false },
        [{ kind := ToastKind.error, title := "Error"
           description := "Failed to generate outline. Please try again ." }])
    if res.status = 200 then
      match res.outlines with
      | some titles =>
          let cardsData := titles.mapIdx fun idx title =>
            ({ id := freshId idx, title := title, order := idx + 1 } : OutlineCard)
          ({ s₁ with store := addMultipleOutlines cardsData s₁.store
                     noOfCards := cardsData.length
                     isGenerating := false },
            [{ kind := ToastKind.success, title := "Success"
               description := "Outlines generated successfully" }])
      | none => failed
    else failed

/-- Project record returned by the `createProject` action; only the
identifier is consumed by this component. -/
structure Project where
  id : String
deriving Repr, DecidableEq

/-- Response of the external `createProject` action. -/
structure CreateResponse where
  status : Nat
  data : Option Project
deriving Repr, DecidableEq

/-- Payload of the `createProject` call:
`createProject(currentAiPrompt, outlines.slice(0, noOfCards))`. -/
structure CreateProjectRequest where
  title : String
  outlines : List OutlineCard
deriving Repr, DecidableEq

/-- Recent-prompt record added to the prompt store on success. -/
structure PromptRecord where
  id : String
  title : String
  outlines : List OutlineCard
  createdAt : String
deriving Repr, DecidableEq

/-- Observable outcome of one `handleGenerate` run: the new component
state, the toasts raised, the `createProject` request sent (`none` when
the validation guard aborted before the call), the navigation target,
the project stored into the slide store and the record added to the
prompt store. -/
structure HandleGenerateResult where
  state : CreativeAIState
  toasts : List Toast
  request : Option CreateProjectRequest
  navigatedTo : Option String
  projectSet : Option Project
  promptAdded : Option PromptRecord
deriving Repr, DecidableEq

/-- Embedding of `handleGenerate` (`CreativeAI.tsx` lines 85-124), with
the awaited `createProject` response, the generated record uuid and the
timestamp passed in explicitly.  `setIsGenerating(true)` runs before the
empty-outline guard, whose early `return` does not reach the `finally`
block that resets the flag. -/
def handleGenerate (res : CreateResponse) (recordId createdAt : String)
    (s : CreativeAIState) : HandleGenerateResult :=
  let s₁ := { s with isGenerating := true }
  if s₁.store.outlines = [] then
    { state := s₁
      toasts := [{ kind := ToastKind.error, title := "ERROR"
                   description := "Please add at least one card to generate slides" }]
      request := none
      navigatedTo := none
      projectSet := none
      promptAdded := none }
  else
    let request : CreateProjectRequest :=
      { title := s₁.store.currentAiPrompt
        outlines := s₁.store.outlines.take s₁.noOfCards }
    let failed : HandleGenerateResult :=
      { state := { s₁ with isGenerating := false }
        toasts := [{ kind := ToastKind.error, title := "Error"
                     description := "Failed to create project" }]
        request := some request
        navigatedTo := none
        projectSet := none
        promptAdded := none }
    if res.status = 200 then
      match res.data with
      | some project =>
          { state := { s₁ with isGenerating := false
                               store := resetOutlines (setCurrentAiPrompt "" s₁.store) }
            toasts := [{ kind := ToastKind.success, title := "Success"
                         description := "Project created successfully! " }]
            request := some request
            navigatedTo := some ("/presentation/" ++ project.id ++ "/select-theme")
            projectSet := some project
            promptAdded := some
              { id := recordId
                title := if s₁.store.currentAiPrompt = "" then
                    match s₁.store.outlines with
                    | card :: _ => card.title
                    | [] => ""
                  else s₁.store.currentAiPrompt
                outlines := s₁.store.outlines
                createdAt := createdAt } }
      | none => failed
    else failed

/-- Embedding of the `useEffect` with dependency array `[outlines.length]`
(`CreativeAI.tsx` lines 126-128): the effect re-runs — setting
`noOfCards` to the outline count — exactly when the length differs from
the previously observed one. -/
def syncNoOfCards (prevLength : Nat) (s : CreativeAIState) : CreativeAIState :=
  if s.store.outlines.length ≠ prevLength then
    { s with noOfCards := s.store.outlines.length }
  else s

/-- C7 counterexample: the store-level reset (`resetOutlines`) applied to
a store holding prompt `"p"` leaves the prompt `"p"`, not the empty
string — the claim that the store's reset clears both the prompt and the
outline list is false. -/
theorem reset_clears_prompt_cex :
    (resetOutlines { currentAiPrompt := "p", outlines := [⟨"a", "A", 1⟩] }).currentAiPrompt
      ≠ "" := by
  decide

/-- C7 amended — The store's reset operation `resetOutlines` clears only
the outline list and leaves the prompt untouched; the component-level
`resetCards` clears both, by calling `setCurrentAiPrompt('')` alongside
`resetOutlines()`, for every prior state. -/
theorem reset_semantics (st : CreativeAIStore) (s : CreativeAIState) :
    (resetOutlines st).outlines = []
    ∧ (resetOutlines st).currentAiPrompt = st.currentAiPrompt
    ∧ (resetCards s).store.outlines = []
    ∧ (resetCards s).store.currentAiPrompt = "" :=
  ⟨rfl, rfl, rfl, rfl⟩

/-- Witness for C7 amended at a concrete store and component state. -/
theorem reset_semantics_witness :
    (resetOutlines { currentAiPrompt := "p", outlines := [⟨"a", "A", 1⟩] }).currentAiPrompt
      = "p"
    ∧ (resetCards { editingCard := some "a", isGenerating := true, editText := "t"
                    selectedCard := some "a", noOfCards := 2
                    store := { currentAiPrompt := "p", outlines := [⟨"a", "A", 1⟩] } }
        ).store.currentAiPrompt = "" :=
  ⟨(reset_semantics { currentAiPrompt := "p", outlines := [⟨"a", "A", 1⟩] }
      { editingCard := some "a", isGenerating := true, editText := "t"
        selectedCard := some "a", noOfCards := 2
        store := { currentAiPrompt := "p", outlines := [⟨"a", "A", 1⟩] } }).2.1,
    (reset_semantics { currentAiPrompt := "p", outlines := [⟨"a", "A", 1⟩] }
      { editingCard := some "a", isGenerating := true, editText := "t"
        selectedCard := some "a", noOfCards := 2
        store := { currentAiPrompt := "p", outlines := [⟨"a", "A", 1⟩] } }).2.2.2⟩

/-- C8 — Validation behaviour at the failing input.  With an empty
prompt, `generateOutline` only raises the error toast and leaves the
component state untouched, as the claim says.  With an empty outline
list, `handleGenerate` leaves the store untouched, sends no request and
raises the error toast — but, contrary to the claim, it flips the
generation flag to `true` before the guard and returns without ever
resetting it (the early return skips the `finally` block), so the state
is not unchanged. -/
theorem empty_validation_effects (freshId : Nat → String) (genRes : GenerateResponse)
    (res : CreateResponse) (recordId createdAt : String) :
    (generateOutline freshId genRes
        { editingCard := none, isGenerating := false, editText := ""
          selectedCard := none, noOfCards := 3
          store := { currentAiPrompt := "", outlines := [⟨"a", "A", 1⟩] } }).1
      = { editingCard := none, isGenerating := false, editText := ""
          selectedCard := none, noOfCards := 3
          store := { currentAiPrompt := "", outlines := [⟨"a", "A", 1⟩] } }
    ∧ (generateOutline freshId genRes
        { editingCard := none, isGenerating := false, editText := ""
          selectedCard := none, noOfCards := 3
          store := { currentAiPrompt := "", outlines := [⟨"a", "A", 1⟩] } }).2
      = [{ kind := ToastKind.error, title := "Error"
           description := "Please enter a prompt to  generate an outline." }]
    ∧ (handleGenerate res recordId createdAt
        { editingCard := none, isGenerating := false, editText := ""
          selectedCard := none, noOfCards := 3
          store := { currentAiPrompt := "p", outlines := [] } }).state.store
      = { currentAiPrompt := "p", outlines := [] }
    ∧ (handleGenerate res recordId createdAt
        { editingCard := none, isGenerating := false, editText := ""
          selectedCard := none, noOfCards := 3
          store := { currentAiPrompt := "p", outlines := [] } }).request = none
    ∧ (handleGenerate res recordId createdAt
        { editingCard := none, isGenerating := false, editText := ""
          selectedCard := none, noOfCards := 3
          store := { currentAiPrompt := "p", outlines := [] } }).toasts
      = [{ kind := ToastKind.error, title := "ERROR"
           description := "Please add at least one card to generate slides" }]
    ∧ (handleGenerate res recordId createdAt
        { editingCard := none, isGenerating := false, editText := ""
          selectedCard := none, noOfCards := 3
          store := { currentAiPrompt := "p", outlines := [] } }).state.isGenerating
      = true :=
  ⟨rfl, rfl, rfl, rfl, rfl, rfl⟩

/-- Witness for C8 at fully concrete inputs: the generation flag is left
`true` by the aborted `handleGenerate`, although it was `false` before. -/
theorem empty_validation_effects_witness :
    (handleGenerate { status := 200, data := some { id := "pid" } } "r" "d"
        { editingCard := none, isGenerating := false, editText := ""
          selectedCard := none, noOfCards := 3
          store := { currentAiPrompt := "p", outlines := [] } }).state.isGenerating
      = true :=
  (empty_validation_effects (fun _ => "u") { status := 200, outlines := some ["t"] }
    { status := 200, data := some { id := "pid" } } "r" "d").2.2.2.2.2

/-- C10 — Project creation submits only a prefix of the outline list:
for every state with a non-empty outline list, the `createProject`
request carries `outlines.slice(0, noOfCards)` — exactly the first
`min(noOfCards, N)` cards — while the recent-prompt record created on
success carries the full list; and the counter-sync effect re-runs
(setting `noOfCards := N`) exactly when the list length differs from the
previously observed one. -/
theorem project_creation_payload (res : CreateResponse) (recordId createdAt : String)
    (s : CreativeAIState) (h : s.store.outlines ≠ []) :
    (handleGenerate res recordId createdAt s).request
        = some { title := s.store.currentAiPrompt
                 outlines := s.store.outlines.take s.noOfCards }
    ∧ (s.store.outlines.take s.noOfCards).length
        = min s.noOfCards s.store.outlines.length
    ∧ (res.status = 200 → res.data ≠ none →
        ((handleGenerate res recordId createdAt s).promptAdded.map PromptRecord.outlines)
          = some s.store.outlines)
    ∧ syncNoOfCards s.store.outlines.length s = s
    ∧ ∀ prevLength, prevLength ≠ s.store.outlines.length →
        (syncNoOfCards prevLength s).noOfCards = s.store.outlines.length := by
  refine ⟨?_, List.length_take _ _, ?_, ?_, ?_⟩
  · simp only [handleGenerate]
    rw [if_neg h]
    split
    · split <;> rfl
    · rfl
  · intro h200 hdata
    simp only [handleGenerate]
    rw [if_neg h, if_pos h200]
    cases hd : res.data with
    | none => exact absurd hd hdata
    | some project => rfl
  · unfold syncNoOfCards
    rw [if_neg (fun hne => hne rfl)]
  · intro prevLength hne
    unfold syncNoOfCards
    rw [if_pos (Ne.symm hne)]

/-- Witness for C10: three cards with the counter at 2 — the request
carries exactly the first two cards. -/
theorem project_creation_payload_witness :
    ((handleGenerate { status := 200, data := some { id := "pid" } } "r" "d"
        { editingCard := none, isGenerating := false, editText := ""
          selectedCard := none, noOfCards := 2
          store := { currentAiPrompt := "p"
                     outlines := [⟨"a", "A", 1⟩, ⟨"b", "B", 2⟩, ⟨"c", "C", 3⟩] } }).request
      = some { title := "p"
               outlines := ([⟨"a", "A", 1⟩, ⟨"b", "B", 2⟩, ⟨"c", "C", 3⟩] :
                  List OutlineCard).take 2 })
    ∧ (handleGenerate { status := 200, data := some { id := "pid" } } "r" "d"
        { editingCard := none, isGenerating := false, editText := ""
          selectedCard := none, noOfCards := 2
          store := { currentAiPrompt := "p"
                     outlines := [⟨"a", "A", 1⟩, ⟨"b", "B", 2⟩, ⟨"c", "C", 3⟩] } }).request
      = some { title := "p", outlines := [⟨"a", "A", 1⟩, ⟨"b", "B", 2⟩] } :=
  ⟨(project_creation_payload { status := 200, data := some { id := "pid" } } "r" "d"
      { editingCard := none, isGenerating := false, editText := ""
        selectedCard := none, noOfCards := 2
        store := { currentAiPrompt := "p"
                   outlines := [⟨"a", "A", 1⟩, ⟨"b", "B", 2⟩, ⟨"c", "C", 3⟩] } }
      (by decide)).1,
    by decide⟩

/-- Event driving the auto-save effect of `Editor.tsx`: a
persistence-triggering content change carrying its time in milliseconds
and the new slides snapshot, or the teardown of the editor view. -/
inductive AutoSaveEvent (α : Type) where
  | change (time : Nat) (slides : α)
  | teardown (time : Nat)
deriving Repr, DecidableEq

/-- Time at which an event occurs. -/
def AutoSaveEvent.time : AutoSaveEvent α → Nat
  | .change t _ => t
  | .teardown t => t

/-- Discrete-event run of the auto-save effect (`Editor.tsx` lines
219-227) over a time-ordered event list, starting from an optional
pending timer (expiry time, captured snapshot).  A pending timer whose
expiry has been reached fires its persistence call before the next event
is handled; each change clears any pending timer (`clearTimeout`) and
schedules a new one a full quiet period (2000 ms) later carrying the
latest snapshot (`setTimeout(() => saveSlides(), 2000)`); teardown runs
the effect cleanup, which clears any pending timer and schedules
nothing; after the last event a still-pending timer eventually fires.
Returns the persistence calls as (time, snapshot) pairs. -/
def runAutoSave : List (AutoSaveEvent α) → Option (Nat × α) → List (Nat × α)
  | [], pending => pending.toList
  | ev :: rest, pending =>
      let fired : List (Nat × α) :=
        match pending with
        | some p => if p.1 ≤ ev.time then [p] else []
        | none => []
      match ev with
      | .change t slides => fired ++ runAutoSave rest (some (t + 2000, slides))
      | .teardown _ => fired ++ runAutoSave rest none

/-- Change events built from a list of (time, snapshot) pairs. -/
def changes (l : List (Nat × α)) : List (AutoSaveEvent α) :=
  l.map fun p => .change p.1 p.2

/-- Burst of changes: strictly increasing times, each change arriving
within the 2000 ms quiet window opened by its predecessor. -/
def burstB : List (Nat × α) → Bool
  | [] => true
  | [_] => true
  | p :: q :: rest =>
      decide (p.1 < q.1) && decide (q.1 < p.1 + 2000) && burstB (q :: rest)

/-- Last element of a nonempty list given as head plus tail. -/
def lastOf (p : Nat × α) : List (Nat × α) → Nat × α
  | [] => p
  | q :: rest => lastOf q rest

theorem runAutoSave_burst_aux (rest : List (Nat × α)) :
    ∀ (t : Nat) (a : α), burstB ((t, a) :: rest) = true →
      runAutoSave (changes rest) (some (t + 2000, a))
        = [((lastOf (t, a) rest).1 + 2000, (lastOf (t, a) rest).2)] := by
  induction rest with
  | nil => intro t a _; rfl
  | cons q rest ih =>
      intro t a hb
      obtain ⟨⟨h1, h2⟩, h3⟩ :
          (t < q.1 ∧ q.1 < t + 2000) ∧ burstB (q :: rest) = true := by
        simpa [burstB, Bool.and_eq_true, decide_eq_true_eq] using hb
      simp only [changes, List.map_cons, runAutoSave, AutoSaveEvent.time, lastOf]
      rw [if_neg (by omega), List.nil_append]
      exact ih q.1 q.2 h3

theorem runAutoSave_burst_teardown_aux (rest : List (Nat × α)) :
    ∀ (t : Nat) (a : α) (T : Nat), burstB ((t, a) :: rest) = true →
      T < (lastOf (t, a) rest).1 + 2000 →
      runAutoSave (changes rest ++ [.teardown T]) (some (t + 2000, a)) = [] := by
  induction rest with
  | nil =>
      intro t a T _ hT
      simp only [lastOf] at hT
      simp only [changes, List.map_nil, List.nil_append, runAutoSave, AutoSaveEvent.time]
      rw [if_neg (by omega)]
      rfl
  | cons q rest ih =>
      intro t a T hb hT
      obtain ⟨⟨h1, h2⟩, h3⟩ :
          (t < q.1 ∧ q.1 < t + 2000) ∧ burstB (q :: rest) = true := by
        simpa [burstB, Bool.and_eq_true, decide_eq_true_eq] using hb
      simp only [lastOf] at hT
      simp only [changes, List.map_cons, List.cons_append, runAutoSave, AutoSaveEvent.time]
      rw [if_neg (by omega), List.nil_append]
      exact ih q.1 q.2 T h3 hT

/-- C9 — Debounce collapsing: for any burst of persistence-triggering
changes (each arriving within the 2000 ms quiet window of its
predecessor), exactly one persistence call fires, at quiet-period expiry
2000 ms after the last change, carrying the snapshot of the last change;
and a teardown before that expiry clears the pending timer, so no call
fires at all after it. -/
theorem debounce_collapsing (p : Nat × α) (l : List (Nat × α)) (T : Nat)
    (hb : burstB (p :: l) = true)
    (hT : T < (lastOf p l).1 + 2000) :
    runAutoSave (changes (p :: l)) none
        = [((lastOf p l).1 + 2000, (lastOf p l).2)]
    ∧ runAutoSave (changes (p :: l) ++ [.teardown T]) none = [] := by
  constructor
  · simp only [changes, List.map_cons, runAutoSave, lastOf]
    rw [List.nil_append]
    exact runAutoSave_burst_aux l p.1 p.2 hb
  · simp only [changes, List.map_cons, List.cons_append, runAutoSave, lastOf]
    rw [List.nil_append]
    exact runAutoSave_burst_teardown_aux l p.1 p.2 T hb hT

/-- Witness for C9 at the spec scenario: changes at t = 0, 500, 700 ms
with a 2000 ms window yield exactly one persistence call, at t = 2700 ms,
carrying the snapshot of t = 700; tearing the editor down at t = 800
cancels the pending timer so no call ever fires. -/
theorem debounce_collapsing_witness :
    burstB [((0 : Nat), "s0"), (500, "s1"), (700, "s2")] = true
    ∧ runAutoSave (changes [((0 : Nat), "s0"), (500, "s1"), (700, "s2")]) none
        = [(2700, "s2")]
    ∧ runAutoSave (changes [((0 : Nat), "s0"), (500, "s1"), (700, "s2")]
        ++ [.teardown 800]) none = [] :=
  ⟨by decide,
    (debounce_collapsing (0, "s0") [(500, "s1"), (700, "s2")] 800
      (by decide) (by decide)).1,
    (debounce_collapsing (0, "s0") [(500, "s1"), (700, "s2")] 800
      (by decide) (by decide)).2⟩

end VividAI
